import Mathlib

/-!
Shallow embedding of `lib/datasets/WiderPedestrian.py` (the `WiderPedestrian`
dataset adapter of the Cascade-RCNN repository), together with proofs of the
behavioural properties of its operations.

Ground-truth pixel coordinates, image sizes and areas are integral (the
spec's data model declares integer box coordinates); they are embedded as
`Int`.  Detection rows and scores of the evaluation side are JSON floats with
exact decimal values and are embedded as rationals (`ℚ`).  Image identifiers
and class indices are naturals.  The
external COCO annotation index is modelled as an environment of query
functions (`CocoEnv`); the local file system visible to the adapter is
modelled explicitly where an operation reads or writes it.
-/

set_option autoImplicit false

namespace WP

/-- An axis-aligned box in corner form, as stored in an `ImageRecord`. -/
structure BBox where
  x1 : Int
  y1 : Int
  x2 : Int
  y2 : Int
deriving DecidableEq, Repr

/-- A raw COCO-style instance as returned by the index's `loadAnns` query:
`bbox = [x, y, w, h]`, an area, an external category id and the crowd flag. -/
structure RawAnn where
  x : Int
  y : Int
  w : Int
  h : Int
  area : Int
  categoryId : Nat
  iscrowd : Bool
deriving DecidableEq, Repr

/-- One per-image ground-truth record of the roidb
(the dictionary built at the end of `_load_coco_annotation`). -/
structure ImageRecord where
  width : Int
  height : Int
  boxes : List BBox
  gt_classes : List Nat
  gt_overlaps : List (List Int)
  flipped : Bool
  seg_areas : List Int
deriving DecidableEq, Repr

/-- The external COCO annotation index, seen through the queries the adapter
makes: per-image width/height, per-image raw instances, and the class table
(`num_classes` and the external-category-id → dense-class-index map built from
`_class_to_coco_cat_id` and `_class_to_ind`). -/
structure CocoEnv where
  numClasses : Nat
  catIdToClassInd : Nat → Nat
  imgWidth : Nat → Int
  imgHeight : Nat → Int
  imgAnns : Nat → List RawAnn

/-- Box sanitization of `_load_coco_annotation` (lines 147-150):
`x1 = max(0, bx)`, `y1 = max(0, by)`, `x2 = min(width-1, x1 + max(0, bw-1))`,
`y2 = min(height-1, y1 + max(0, bh-1))`. -/
def clipBBox (width height : Int) (o : RawAnn) : BBox :=
  let x1 := max 0 o.x
  let y1 := max 0 o.y
  let x2 := min (width - 1) (x1 + max 0 (o.w - 1))
  let y2 := min (height - 1) (y1 + max 0 (o.h - 1))
  ⟨x1, y1, x2, y2⟩

/-- The filter condition of line 151: `obj['area'] > 0 and x2 >= x1 and y2 >= y1`. -/
def keepObj (width height : Int) (o : RawAnn) : Bool :=
  let b := clipBBox width height o
  decide (0 < o.area) && decide (b.x1 ≤ b.x2) && decide (b.y1 ≤ b.y2)

/-- The `valid_objs` list of `_load_coco_annotation` (lines 145-154). -/
def validObjs (width height : Int) (objs : List RawAnn) : List RawAnn :=
  objs.filter (keepObj width height)

/-- One row of the `overlaps` matrix (lines 159, 173-178): the row starts as
zeros; a crowd instance gets `-1.0` in every column, a non-crowd instance gets
`1.0` at its dense class index. -/
def overlapRow (numClasses : Nat) (iscrowd : Bool) (cls : Nat) : List Int :=
  if iscrowd then List.replicate numClasses (-1)
  else (List.replicate numClasses 0).set cls 1

/-- The pure content of `_load_coco_annotation` after the index queries:
sanitize the raw instances, then assemble the per-image record from the
surviving ones (lines 144-193). -/
def loadCocoAnn (numClasses : Nat) (catIdToClassInd : Nat → Nat)
    (width height : Int) (objs : List RawAnn) : ImageRecord :=
  let valid := validObjs width height objs
  { width := width
    height := height
    boxes := valid.map (clipBBox width height)
    gt_classes := valid.map (fun o => catIdToClassInd o.categoryId)
    gt_overlaps := valid.map (fun o => overlapRow numClasses o.iscrowd (catIdToClassInd o.categoryId))
    flipped := false
    seg_areas := valid.map (fun o => o.area) }

/-- Entry `_load_coco_annotation(index)`: query the environment for the image's
width, height and raw instances, and convert. -/
def convertAnn (env : CocoEnv) (index : Nat) : ImageRecord :=
  loadCocoAnn env.numClasses env.catIdToClassInd
    (env.imgWidth index) (env.imgHeight index) (env.imgAnns index)

/-- The two correlated evaluation flags of `self.config` (lines 31-32). -/
structure DatasetConfig where
  use_salt : Bool
  cleanup : Bool
deriving DecidableEq, Repr

/-- The adapter's mutable state: the image-identifier index, the roidb, the
on-disk-cache flag `_use_cache`, the content of the gt-roidb cache artifact
(`none` when no cache file exists on disk), and the evaluation flags. -/
structure DatasetState where
  imageIndex : List Nat
  roidb : List ImageRecord
  useCache : Bool
  cache : Option (List ImageRecord)
  config : DatasetConfig
deriving DecidableEq, Repr

/-- Construction (`__init__`, lines 28-52): the image index comes from the
index's image-enumeration query; `_use_cache = True if ann_path is None else
False` (line 39); `competition_mode(False)` sets `use_salt` and `cleanup` to
true (line 52).  The roidb is not built yet, and the cache artifact is
whatever already exists on disk. -/
def mkDatasetState (ann_path : Option String) (imageIndex : List Nat)
    (cacheOnDisk : Option (List ImageRecord)) : DatasetState :=
  { imageIndex := imageIndex
    roidb := []
    useCache := ann_path.isNone
    cache := cacheOnDisk
    config := { use_salt := true, cleanup := true } }

/-- Operation `gt_roidb` (lines 111-130): when a cache artifact exists and `_use_cache`
is set, return the deserialized cache unchanged; otherwise convert every image
identifier in index order, write the result to the cache path, and return it.
The returned pair is (returned roidb, state after the call). -/
def gtRoidb (env : CocoEnv) (s : DatasetState) : List ImageRecord × DatasetState :=
  match s.cache with
  | some cached =>
    if s.useCache then (cached, s)
    else
      let g := s.imageIndex.map (convertAnn env)
      (g, { s with cache := some g })
  | none =>
    let g := s.imageIndex.map (convertAnn env)
    (g, { s with cache := some g })

/-- The mirrored record built in the body of `append_flipped_images`
(lines 202-214): `x1' = width - x2 - 1`, `x2' = width - x1 - 1`, everything
else shared with the original, and `flipped = True`. -/
def flipRecord (r : ImageRecord) : ImageRecord :=
  { r with
    boxes := r.boxes.map (fun b => ⟨r.width - b.x2 - 1, b.y1, r.width - b.x1 - 1, b.y2⟩)
    flipped := true }

/-- Modelled from the spec: the base dataset interface (`imdb`, not part of
this file set) exposes `num_images` as the length of the image-identifier
index. -/
def DatasetState.numImages (s : DatasetState) : Nat := s.imageIndex.length

/-- The assertion of line 207, `(boxes[:, 2] >= boxes[:, 0]).all()`, checked
on the mirrored boxes of one record. -/
def flipAssertHolds (r : ImageRecord) : Bool :=
  (flipRecord r).boxes.all (fun b => decide (b.x1 ≤ b.x2))

/-- Operation `append_flipped_images` (lines 198-217): for each of the first
`num_images` records, append its mirrored record (asserting that every
mirrored box is still ordered), then double the image index by
self-concatenation (`self._image_index * 2`).  A failed assertion aborts the
call (`none`). -/
def appendFlippedImages (s : DatasetState) : Option DatasetState :=
  let originals := s.roidb.take s.numImages
  if originals.all flipAssertHolds then
    some { s with
           roidb := s.roidb ++ originals.map flipRecord
           imageIndex := s.imageIndex ++ s.imageIndex }
  else none

/-- Operation `competition_mode(on)` (lines 322-328). -/
def competitionMode (mode : Bool) (s : DatasetState) : DatasetState :=
  if mode then { s with config := { use_salt := false, cleanup := false } }
  else { s with config := { use_salt := true, cleanup := true } }

/-- Python's `str.zfill` for a non-negative argument: pad on the left with
`'0'` up to the requested width. -/
def zfill (width : Nat) (s : String) : String :=
  if width ≤ s.length then s
  else String.mk (List.replicate (width - s.length) '0') ++ s

/-- The file name built in `image_path_from_index` (line 105):
`'img' + str(index).zfill(5) + '.jpg'`. -/
def imageFileName (index : Nat) : String :=
  "img" ++ zfill 5 (toString index) ++ ".jpg"

/-- The path built in `image_path_from_index` (line 106):
`osp.join(self._data_path, 'JPEGImages', file_name)`. -/
def imagePathFromIndex (dataPath : String) (index : Nat) : String :=
  dataPath ++ "/JPEGImages/" ++ imageFileName index

/-- Failure of the existence assertion of lines 107-108. -/
inductive PathError where
  | notFound : String → PathError
deriving DecidableEq, Repr

/-- Operation `image_path_from_index` with its existence assertion (lines 99-109):
`fs p = true` models "the file at path `p` exists on disk". -/
def resolveImage (fs : String → Bool) (dataPath : String) (index : Nat) :
    Except PathError String :=
  let p := imagePathFromIndex dataPath index
  if fs p then .ok p else .error (.notFound p)

/-- Operation `image_path_at(i)` (lines 87-91): resolve the path of the `i`-th image
identifier of the index. -/
def imagePathAt (fs : String → Bool) (dataPath : String)
    (imageIndex : List Nat) (i : Nat) : Except PathError String :=
  resolveImage fs dataPath (imageIndex.getD i 0)

/-- One detected box row `(x1, y1, x2, y2, score)` of `all_boxes[cls][im]`. -/
structure Det where
  x1 : ℚ
  y1 : ℚ
  x2 : ℚ
  y2 : ℚ
  score : ℚ
deriving DecidableEq, Repr

/-- One entry of the results JSON array (lines 284-287). -/
structure ResultEntry where
  image_id : Nat
  category_id : Nat
  bbox : List ℚ
  score : ℚ
deriving DecidableEq, Repr

/-- Helper `_coco_results_one_category` (lines 272-288): for each image of the index
(in order), emit one entry per detected row, with
`bbox = [x1, y1, x2 - x1 + 1, y2 - y1 + 1]`.  An image with no rows
contributes nothing. -/
def cocoResultsOneCategory (imageIndex : List Nat) (boxes : List (List Det))
    (catId : Nat) : List ResultEntry :=
  (imageIndex.zip boxes).flatMap fun p =>
    p.2.map fun d =>
      { image_id := p.1
        category_id := catId
        bbox := [d.x1, d.y1, d.x2 - d.x1 + 1, d.y2 - d.y1 + 1]
        score := d.score }

/-- Operation `_write_coco_results_file` (lines 290-306): iterate over the class table
with its dense indices, skip the `'__background__'` class, and collect the
per-category results of `all_boxes[cls_ind]` under the class's external COCO
category id. -/
def writeCocoResultsFile (classes : List String) (classToCatId : String → Nat)
    (imageIndex : List Nat) (allBoxes : List (List (List Det))) : List ResultEntry :=
  classes.enum.flatMap fun p =>
    if p.2 = "__background__" then []
    else cocoResultsOneCategory imageIndex (allBoxes.getD p.1 []) (classToCatId p.2)

/-- Stated from the spec's words, for comparison with `writeCocoResultsFile`:
flatten the non-background classes (dense indices 1, 2, …) of
`perClassBoxes`, each under its external category id. -/
def flattenDetectionsSpec (restClasses : List String) (classToCatId : String → Nat)
    (imageIndex : List Nat) (allBoxes : List (List (List Det))) : List ResultEntry :=
  restClasses.enum.flatMap fun p =>
    cocoResultsOneCategory imageIndex (allBoxes.getD (p.1 + 1) []) (classToCatId p.2)

/-- A Python value that is either a string or an integer, for the
concatenation performed in `evaluate_detections` (lines 309-312). -/
inductive PyVal where
  | vstr : String → PyVal
  | vint : Int → PyVal
deriving DecidableEq, Repr

/-- Python's `+` on such values: string + string concatenates, int + int
adds, and mixing the two raises `TypeError` (`none`). -/
def pyAdd : PyVal → PyVal → Option PyVal
  | .vstr a, .vstr b => some (.vstr (a ++ b))
  | .vint a, .vint b => some (.vint (a + b))
  | _, _ => none

/-- The expression of lines 309-312,
`'detections_' + self._image_set + self._year + '_results'`, where
`self._image_set` is a string and `self._year` is the integer 2018 set in
`__init__` (lines 34-35). -/
def resFileBase (imageSet : String) (year : Int) : Option PyVal :=
  (pyAdd (.vstr "detections_") (.vstr imageSet)).bind fun a =>
    (pyAdd a (.vint year)).bind fun b =>
      pyAdd b (.vstr "_results")

/-- The full results-file name of `evaluate_detections` (lines 308-315): the
base name, a `_<uuid>` suffix when `use_salt` is set, then `'.json'`.
`none` models the `TypeError` raised by the base-name concatenation. -/
def evalResFileName (imageSet : String) (year : Int) (use_salt : Bool)
    (uuidToken : String) : Option String :=
  (resFileBase imageSet year).bind fun base =>
    match base with
    | .vstr b => some ((if use_salt then b ++ "_" ++ uuidToken else b) ++ ".json")
    | .vint _ => none

theorem pyAdd_str_str (a b : String) : pyAdd (.vstr a) (.vstr b) = some (.vstr (a ++ b)) := rfl

theorem pyAdd_str_int (a : String) (n : Int) : pyAdd (.vstr a) (.vint n) = none := rfl

/-- C7: `competition_mode(on)` sets both flags together — on `True` it sets
`use_salt = False` and `cleanup = False`, on `False` it sets both back to
`True` — so `competition_mode(True)` followed by `competition_mode(False)`
restores `{use_salt: True, cleanup: True}` exactly, from any starting flag
state. -/
theorem competitionMode_toggle (s : DatasetState) :
    (competitionMode true s).config = { use_salt := false, cleanup := false } ∧
    (competitionMode false s).config = { use_salt := true, cleanup := true } ∧
    (competitionMode false (competitionMode true s)).config =
      { use_salt := true, cleanup := true } := by
  refine ⟨?_, ?_, ?_⟩ <;> simp [competitionMode]

/-- C6 (counterexample to the claimed behaviour, at every input):
`evaluate_detections` concatenates the string `'detections_' + image_set`
with the integer `self._year = 2018`, which is a `TypeError` in Python, so no
results-file name — salted or not — is ever produced.  Both the base-name
expression and the full name computation fail. -/
theorem evalResFileName_type_error (imageSet : String) (year : Int)
    (use_salt : Bool) (uuidToken : String) :
    resFileBase imageSet year = none ∧
    evalResFileName imageSet year use_salt uuidToken = none := by
  have hbase : resFileBase imageSet year = none := by
    simp [resFileBase, pyAdd_str_str, pyAdd_str_int]
  exact ⟨hbase, by simp [evalResFileName, hbase]⟩

/-- C8: for a position `i` of the image index, `image_path_at(i)` resolves to
the path `<dataPath>/JPEGImages/img<id zero-padded to 5 digits>.jpg` of the
`i`-th image identifier exactly when that file exists, and fails with a
not-found error (for that same path) exactly when it does not.  The operation
is a pure path check: it is modelled as a function of the file system with no
output other than the result. -/
theorem imagePath_resolution (fs : String → Bool) (dataPath : String)
    (imageIndex : List Nat) (i : Nat) (h : i < imageIndex.length) :
    ∀ p : String,
      p = dataPath ++ "/JPEGImages/" ++
            ("img" ++ zfill 5 (toString (imageIndex.get ⟨i, h⟩)) ++ ".jpg") →
      (fs p = true → imagePathAt fs dataPath imageIndex i = .ok p) ∧
      (fs p = false → imagePathAt fs dataPath imageIndex i = .error (.notFound p)) := by
  intro p hp
  have hid : imageIndex.getD i 0 = imageIndex.get ⟨i, h⟩ := by
    simp [List.getD_eq_getElem?_getD, List.getElem?_eq_getElem h, List.get_eq_getElem]
  have hpath : imagePathFromIndex dataPath (imageIndex.getD i 0) = p := by
    rw [hid, hp]; rfl
  constructor <;> intro hfs <;>
    simp only [imagePathAt, resolveImage, hpath, hfs] <;> simp

/-- Closed instance of `imagePath_resolution`: one image with identifier 93
under data path `"d"`, with exactly `d/JPEGImages/img00093.jpg` on disk. -/
theorem imagePath_resolution_witness :
    (0 : Nat) < ([93] : List Nat).length ∧
    ((fun q => q == "d/JPEGImages/img00093.jpg") "d/JPEGImages/img00093.jpg" = true) ∧
    imagePathAt (fun q => q == "d/JPEGImages/img00093.jpg") "d" [93] 0 =
      .ok "d/JPEGImages/img00093.jpg" := by
  refine ⟨by decide, by decide, ?_⟩
  exact (imagePath_resolution (fun q => q == "d/JPEGImages/img00093.jpg") "d" [93] 0
      (by decide) "d/JPEGImages/img00093.jpg" (by decide)).1 (by decide)

theorem flipAssertHolds_of_ordered (r : ImageRecord)
    (hord : ∀ b ∈ r.boxes, b.x1 ≤ b.x2) : flipAssertHolds r = true := by
  simp only [flipAssertHolds, flipRecord, List.all_eq_true, List.mem_map,
    decide_eq_true_eq]
  rintro b ⟨a, ha, rfl⟩
  have := hord a ha
  simp only
  linarith

/-- C10: under the `ImageRecord` invariant `0 ≤ x1 ≤ x2 ≤ width - 1` for
every box of every record, the assertion of `append_flipped_images` that
every mirrored box satisfies `x2' ≥ x1'` holds for every record, so the
assertion-failure branch of the call is unreachable. -/
theorem flip_assert_unreachable (s : DatasetState)
    (hinv : ∀ r ∈ s.roidb, ∀ b ∈ r.boxes,
      0 ≤ b.x1 ∧ b.x1 ≤ b.x2 ∧ b.x2 ≤ r.width - 1) :
    (∀ r ∈ s.roidb, flipAssertHolds r = true) ∧ appendFlippedImages s ≠ none := by
  have hall : ∀ r ∈ s.roidb, flipAssertHolds r = true := fun r hr =>
    flipAssertHolds_of_ordered r (fun b hb => (hinv r hr b hb).2.1)
  refine ⟨hall, ?_⟩
  have hcond : (s.roidb.take s.numImages).all flipAssertHolds = true := by
    rw [List.all_eq_true]
    exact fun r hr => hall r (List.mem_of_mem_take hr)
  simp [appendFlippedImages, hcond]

/-- Closed instance of `flip_assert_unreachable`: a one-record state whose
single box `(10, 10, 50, 50)` satisfies the invariant for width 100. -/
theorem flip_assert_unreachable_witness :
    (∀ r ∈ ({ imageIndex := [7],
              roidb := [{ width := 100, height := 80,
                          boxes := [⟨10, 10, 50, 50⟩], gt_classes := [1],
                          gt_overlaps := [[0, 1]], flipped := false,
                          seg_areas := [600] }],
              useCache := true, cache := none,
              config := { use_salt := true, cleanup := true } } : DatasetState).roidb,
        ∀ b ∈ r.boxes, 0 ≤ b.x1 ∧ b.x1 ≤ b.x2 ∧ b.x2 ≤ r.width - 1) ∧
    appendFlippedImages
      { imageIndex := [7],
        roidb := [{ width := 100, height := 80,
                    boxes := [⟨10, 10, 50, 50⟩], gt_classes := [1],
                    gt_overlaps := [[0, 1]], flipped := false,
                    seg_areas := [600] }],
        useCache := true, cache := none,
        config := { use_salt := true, cleanup := true } } ≠ none :=
  ⟨by decide, (flip_assert_unreachable _ (by decide)).2⟩

/-- C3: on a state whose roidb and index both have length `n` (every record
an `ImageRecord`, so with ordered boxes), one call to
`append_flipped_images` keeps the original records in place and appends, for
each original record `i < n` in order, a mirrored record with
`x1' = width - x2 - 1`, `x2' = width - x1 - 1`, the y-coordinates, height,
class labels, overlaps and areas unchanged, and `flipped = true`; afterwards
roidb and index both have length `2n` and the index is the original sequence
self-concatenated. -/
theorem appendFlippedImages_spec (s : DatasetState)
    (hlen : s.roidb.length = s.imageIndex.length)
    (hord : ∀ r ∈ s.roidb, ∀ b ∈ r.boxes, b.x1 ≤ b.x2) :
    ∃ t, appendFlippedImages s = some t ∧
      t.roidb.length = 2 * s.roidb.length ∧
      t.imageIndex.length = 2 * s.imageIndex.length ∧
      t.imageIndex = s.imageIndex ++ s.imageIndex ∧
      (∀ i, i < s.roidb.length → t.roidb[i]? = s.roidb[i]?) ∧
      (∀ i r, s.roidb[i]? = some r →
        t.roidb[s.roidb.length + i]? = some
          { width := r.width, height := r.height
            boxes := r.boxes.map fun b =>
              ⟨r.width - b.x2 - 1, b.y1, r.width - b.x1 - 1, b.y2⟩
            gt_classes := r.gt_classes, gt_overlaps := r.gt_overlaps
            flipped := true, seg_areas := r.seg_areas }) := by
  have htake : s.roidb.take s.numImages = s.roidb := by
    rw [DatasetState.numImages, ← hlen, List.take_length]
  have hcond : s.roidb.all flipAssertHolds = true := by
    rw [List.all_eq_true]
    exact fun r hr => flipAssertHolds_of_ordered r (hord r hr)
  refine ⟨{ s with
            roidb := s.roidb ++ s.roidb.map flipRecord,
            imageIndex := s.imageIndex ++ s.imageIndex }, ?_, ?_, ?_, rfl, ?_, ?_⟩
  · simp only [appendFlippedImages, htake, hcond, if_true]
  · simp [two_mul]
  · simp [two_mul]
  · intro i hi
    exact List.getElem?_append_left hi
  · intro i r hr
    rw [List.getElem?_append_right (Nat.le_add_right _ _), Nat.add_sub_cancel_left,
      List.getElem?_map, hr]
    rfl

/-- A one-box record and one-image states used to instantiate the theorems on
concrete data. -/
def recEx : ImageRecord :=
  { width := 100, height := 80, boxes := [⟨10, 10, 50, 50⟩], gt_classes := [1],
    gt_overlaps := [[0, 1]], flipped := false, seg_areas := [600] }

def sEx : DatasetState :=
  { imageIndex := [7], roidb := [recEx], useCache := true, cache := none,
    config := { use_salt := true, cleanup := true } }

def envEx : CocoEnv :=
  { numClasses := 2, catIdToClassInd := fun _ => 1,
    imgWidth := fun _ => 100, imgHeight := fun _ => 80,
    imgAnns := fun _ => [⟨10, 10, 20, 30, 600, 5, false⟩, ⟨-3, -4, 0, 5, 7, 5, true⟩] }

/-- Closed instance of `appendFlippedImages_spec` at the one-record state
`sEx` (width 100, box `(10, 10, 50, 50)`). -/
theorem appendFlippedImages_spec_witness :
    sEx.roidb.length = sEx.imageIndex.length ∧
    (∀ r ∈ sEx.roidb, ∀ b ∈ r.boxes, b.x1 ≤ b.x2) ∧
    (∃ t, appendFlippedImages sEx = some t ∧
      t.roidb.length = 2 * sEx.roidb.length ∧
      t.imageIndex.length = 2 * sEx.imageIndex.length ∧
      t.imageIndex = sEx.imageIndex ++ sEx.imageIndex ∧
      (∀ i, i < sEx.roidb.length → t.roidb[i]? = sEx.roidb[i]?) ∧
      (∀ i r, sEx.roidb[i]? = some r →
        t.roidb[sEx.roidb.length + i]? = some
          { width := r.width, height := r.height
            boxes := r.boxes.map fun b =>
              ⟨r.width - b.x2 - 1, b.y1, r.width - b.x1 - 1, b.y2⟩
            gt_classes := r.gt_classes, gt_overlaps := r.gt_overlaps
            flipped := true, seg_areas := r.seg_areas })) :=
  ⟨by decide, by decide, appendFlippedImages_spec sEx (by decide) (by decide)⟩

theorem gtRoidb_hit (env : CocoEnv) (s : DatasetState) (cached : List ImageRecord)
    (hc : s.cache = some cached) (hu : s.useCache = true) :
    gtRoidb env s = (cached, s) := by
  simp [gtRoidb, hc, hu]

theorem gtRoidb_compute (env : CocoEnv) (s : DatasetState)
    (h : s.cache = none ∨ s.useCache = false) :
    gtRoidb env s =
      (s.imageIndex.map (convertAnn env),
       { s with cache := some (s.imageIndex.map (convertAnn env)) }) := by
  match hc : s.cache with
  | none => simp [gtRoidb, hc]
  | some cached =>
    have hu : s.useCache = false := by
      rcases h with h | h
      · rw [hc] at h; cases h
      · exact h
    simp [gtRoidb, hc, hu]

/-- C4: `gt_roidb` returns the cached sequence unchanged — no recomputation
and no write, the state is untouched — whenever a cache artifact exists and
caching is enabled; otherwise it converts every image identifier in index
order, writes the full ordered sequence to the cache before returning, and
returns one record per identifier in index order.  Consequently two calls
(without intervening mutation) return identical, order-preserving data. -/
theorem gtRoidb_cache_protocol (env : CocoEnv) (s : DatasetState) :
    (∀ cached, s.cache = some cached → s.useCache = true →
      gtRoidb env s = (cached, s)) ∧
    (s.cache = none ∨ s.useCache = false →
      gtRoidb env s =
        (s.imageIndex.map (convertAnn env),
         { s with cache := some (s.imageIndex.map (convertAnn env)) })) ∧
    (gtRoidb env (gtRoidb env s).2).1 = (gtRoidb env s).1 := by
  refine ⟨fun cached hc hu => gtRoidb_hit env s cached hc hu,
    fun h => gtRoidb_compute env s h, ?_⟩
  match hc : s.cache with
  | some cached => cases hu : s.useCache <;> simp [gtRoidb, hc, hu]
  | none => cases hu : s.useCache <;> simp [gtRoidb, hc, hu]

/-- Closed instance of `gtRoidb_cache_protocol`: a state whose cache holds
`[recEx]` with caching enabled returns it unchanged. -/
theorem gtRoidb_cache_protocol_witness :
    ({ imageIndex := [7], roidb := [], useCache := true, cache := some [recEx],
       config := { use_salt := true, cleanup := true } } : DatasetState).cache =
        some [recEx] ∧
    gtRoidb envEx
      { imageIndex := [7], roidb := [], useCache := true, cache := some [recEx],
        config := { use_salt := true, cleanup := true } } =
      ([recEx],
       { imageIndex := [7], roidb := [], useCache := true, cache := some [recEx],
         config := { use_salt := true, cleanup := true } }) :=
  ⟨rfl, (gtRoidb_cache_protocol envEx _).1 [recEx] rfl rfl⟩

/-- C9: at construction the on-disk-cache flag is enabled precisely when no
explicit annotation path is supplied; with an explicit path, `gt_roidb`
ignores any existing cache artifact — it recomputes from the index — while
still writing the computed sequence to the cache. -/
theorem useCache_iff_no_ann_path (a : Option String) (idx : List Nat)
    (c : Option (List ImageRecord)) (env : CocoEnv) :
    ((mkDatasetState a idx c).useCache = true ↔ a = none) ∧
    (a ≠ none →
      (gtRoidb env (mkDatasetState a idx c)).1 = idx.map (convertAnn env) ∧
      (gtRoidb env (mkDatasetState a idx c)).2.cache =
        some (idx.map (convertAnn env))) := by
  constructor
  · simp [mkDatasetState, Option.isNone_iff_eq_none]
  · intro ha
    have hu : (mkDatasetState a idx c).useCache = false := by
      match a, ha with
      | some v, _ => rfl
    rw [gtRoidb_compute env _ (Or.inr hu)]
    exact ⟨rfl, rfl⟩

/-- Closed instance of `useCache_iff_no_ann_path` with the explicit
annotation path `"p"` and a pre-existing (ignored) cache artifact. -/
theorem useCache_iff_no_ann_path_witness :
    (some "p" : Option String) ≠ none ∧
    ((mkDatasetState (some "p") [7] (some [recEx])).useCache = true ↔
      (some "p" : Option String) = none) ∧
    (gtRoidb envEx (mkDatasetState (some "p") [7] (some [recEx]))).1 =
      [7].map (convertAnn envEx) ∧
    (gtRoidb envEx (mkDatasetState (some "p") [7] (some [recEx]))).2.cache =
      some ([7].map (convertAnn envEx)) :=
  ⟨by simp,
   (useCache_iff_no_ann_path (some "p") [7] (some [recEx]) envEx).1,
   ((useCache_iff_no_ann_path (some "p") [7] (some [recEx]) envEx).2 (by simp)).1,
   ((useCache_iff_no_ann_path (some "p") [7] (some [recEx]) envEx).2 (by simp)).2⟩

/-- C1: `_load_coco_annotation` clips each raw annotation's box exactly by
`x1 = max(0, bx)`, `y1 = max(0, by)`, `x2 = min(width-1, x1 + max(0, bw-1))`,
`y2 = min(height-1, y1 + max(0, bh-1))`, keeps the annotation iff `area > 0`
and `x2 ≥ x1` and `y2 ≥ y1`, and consequently every box of the resulting
record satisfies `x1 ≤ x2`, `y1 ≤ y2` and lies within
`[0, width-1] × [0, height-1]`. -/
theorem convertAnn_clip_bounds (env : CocoEnv) (index : Nat) :
    (∀ o : RawAnn, clipBBox (env.imgWidth index) (env.imgHeight index) o =
      { x1 := max 0 o.x, y1 := max 0 o.y,
        x2 := min (env.imgWidth index - 1) (max 0 o.x + max 0 (o.w - 1)),
        y2 := min (env.imgHeight index - 1) (max 0 o.y + max 0 (o.h - 1)) }) ∧
    (∀ o ∈ env.imgAnns index,
      (o ∈ validObjs (env.imgWidth index) (env.imgHeight index) (env.imgAnns index) ↔
        0 < o.area ∧
        max 0 o.x ≤ min (env.imgWidth index - 1) (max 0 o.x + max 0 (o.w - 1)) ∧
        max 0 o.y ≤ min (env.imgHeight index - 1) (max 0 o.y + max 0 (o.h - 1)))) ∧
    (convertAnn env index).boxes =
      (validObjs (env.imgWidth index) (env.imgHeight index) (env.imgAnns index)).map
        (clipBBox (env.imgWidth index) (env.imgHeight index)) ∧
    (∀ b ∈ (convertAnn env index).boxes,
      b.x1 ≤ b.x2 ∧ b.y1 ≤ b.y2 ∧
      0 ≤ b.x1 ∧ b.x2 ≤ env.imgWidth index - 1 ∧
      0 ≤ b.y1 ∧ b.y2 ≤ env.imgHeight index - 1) := by
  refine ⟨fun o => rfl, ?_, rfl, ?_⟩
  · intro o ho
    simp [validObjs, List.mem_filter, ho, keepObj, clipBBox, Bool.and_eq_true,
      decide_eq_true_eq, and_assoc]
  · intro b hb
    simp only [convertAnn, loadCocoAnn, List.mem_map] at hb
    obtain ⟨o, ho, rfl⟩ := hb
    have hkeep := (List.mem_filter.mp ho).2
    simp only [keepObj, clipBBox, Bool.and_eq_true, decide_eq_true_eq] at hkeep
    obtain ⟨⟨_, hx⟩, hy⟩ := hkeep
    refine ⟨hx, hy, le_max_left _ _, min_le_left _ _, le_max_left _ _, min_le_left _ _⟩

/-- Closed instance of `convertAnn_clip_bounds`: in `envEx` (width 100,
height 80), the annotation with bbox `(10, 10, 20, 30)` and area 600 is kept,
converts to the box `(10, 10, 29, 39)`, and that box is ordered and lies
within bounds. -/
theorem convertAnn_clip_bounds_witness :
    (⟨10, 10, 20, 30, 600, 5, false⟩ : RawAnn) ∈ envEx.imgAnns 0 ∧
    ((⟨10, 10, 20, 30, 600, 5, false⟩ : RawAnn) ∈
        validObjs (envEx.imgWidth 0) (envEx.imgHeight 0) (envEx.imgAnns 0) ↔
      0 < (600 : Int) ∧
      max 0 (10 : Int) ≤ min (envEx.imgWidth 0 - 1) (max 0 (10 : Int) + max 0 (20 - 1)) ∧
      max 0 (10 : Int) ≤ min (envEx.imgHeight 0 - 1) (max 0 (10 : Int) + max 0 (30 - 1))) ∧
    (⟨10, 10, 29, 39⟩ : BBox) ∈ (convertAnn envEx 0).boxes ∧
    ((10 : Int) ≤ 29 ∧ (10 : Int) ≤ 39 ∧ (0 : Int) ≤ 10 ∧
      (29 : Int) ≤ envEx.imgWidth 0 - 1 ∧ (0 : Int) ≤ 10 ∧
      (39 : Int) ≤ envEx.imgHeight 0 - 1) :=
  ⟨by decide, (convertAnn_clip_bounds envEx 0).2.1 _ (by decide),
   by decide, (convertAnn_clip_bounds envEx 0).2.2.2 ⟨10, 10, 29, 39⟩ (by decide)⟩

/-- C2: for every surviving annotation, the corresponding row of
`gt_overlaps` has one entry per class and equals `-1.0` in every class column
when the annotation is a crowd annotation, and otherwise is one-hot: `1.0` at
exactly the annotation's dense class index and `0.0` elsewhere. -/
theorem convertAnn_overlap_rows (env : CocoEnv) (index : Nat)
    (hf : ∀ cid, env.catIdToClassInd cid < env.numClasses) :
    ∀ (i : Nat) (o : RawAnn),
      (validObjs (env.imgWidth index) (env.imgHeight index) (env.imgAnns index))[i]? =
        some o →
      ∃ row, (convertAnn env index).gt_overlaps[i]? = some row ∧
        row.length = env.numClasses ∧
        (o.iscrowd = true → ∀ q ∈ row, q = (-1 : Int)) ∧
        (o.iscrowd = false → ∀ j, j < env.numClasses →
          row[j]? = some (if j = env.catIdToClassInd o.categoryId
                          then (1 : Int) else 0)) := by
  intro i o ho
  refine ⟨overlapRow env.numClasses o.iscrowd (env.catIdToClassInd o.categoryId),
    ?_, ?_, ?_, ?_⟩
  · simp [convertAnn, loadCocoAnn, List.getElem?_map, ho]
  · simp only [overlapRow]
    split <;> simp
  · intro hc q hq
    rw [overlapRow, if_pos hc] at hq
    exact List.eq_of_mem_replicate hq
  · intro hc j hj
    rw [overlapRow, if_neg (by simp [hc])]
    by_cases hje : j = env.catIdToClassInd o.categoryId
    · subst hje
      have hlt : env.catIdToClassInd o.categoryId <
          (List.replicate env.numClasses (0 : Int)).length := by
        simpa using hf o.categoryId
      rw [List.getElem?_set_self hlt]
      simp
    · rw [List.getElem?_set_ne (fun h => hje h.symm)]
      simp [List.getElem?_replicate, hj, hje]

/-- Closed instance of `convertAnn_overlap_rows`: in `envEx`, the second
surviving annotation is a crowd annotation and its overlap row is all `-1`. -/
theorem convertAnn_overlap_rows_witness :
    (∀ cid, envEx.catIdToClassInd cid < envEx.numClasses) ∧
    (validObjs (envEx.imgWidth 0) (envEx.imgHeight 0) (envEx.imgAnns 0))[1]? =
      some ⟨-3, -4, 0, 5, 7, 5, true⟩ ∧
    (∃ row, (convertAnn envEx 0).gt_overlaps[1]? = some row ∧
      row.length = envEx.numClasses ∧
      ((⟨-3, -4, 0, 5, 7, 5, true⟩ : RawAnn).iscrowd = true →
        ∀ q ∈ row, q = (-1 : Int)) ∧
      ((⟨-3, -4, 0, 5, 7, 5, true⟩ : RawAnn).iscrowd = false →
        ∀ j, j < envEx.numClasses →
          row[j]? = some (if j = envEx.catIdToClassInd
              (⟨-3, -4, 0, 5, 7, 5, true⟩ : RawAnn).categoryId
            then (1 : Int) else 0))) :=
  ⟨fun _ => (by decide : (1 : Nat) < 2), by decide,
   convertAnn_overlap_rows envEx 0 (fun _ => (by decide : (1 : Nat) < 2)) 1 _ (by decide)⟩

theorem flatMap_congr_mem {α β : Type} (l : List α) (f g : α → List β)
    (h : ∀ a ∈ l, f a = g a) : l.flatMap f = l.flatMap g := by
  induction l with
  | nil => rfl
  | cons a as ih =>
    rw [List.flatMap_cons, List.flatMap_cons, h a (List.mem_cons_self a as),
      ih (fun x hx => h x (List.mem_cons_of_mem a hx))]

/-- C5: with the class table `'__background__' :: rest` (class 0 the
background, which contributes nothing), `_write_coco_results_file` flattens
`all_boxes` — indexed `[class][image]`, rows `(x1, y1, x2, y2, score)` — into
the flat entry sequence of the non-background classes in dense-index order,
each entry carrying `bbox = [x, y, x2-x1+1, y2-y1+1]`; in particular a
detection `(10, 10, 20, 30, 0.9)` of image 7 yields the bbox
`[10, 10, 11, 21]`. -/
theorem writeResults_flatten (restClasses : List String)
    (classToCatId : String → Nat) (imageIndex : List Nat)
    (allBoxes : List (List (List Det)))
    (hbg : "__background__" ∉ restClasses) :
    writeCocoResultsFile ("__background__" :: restClasses) classToCatId
        imageIndex allBoxes =
      flattenDetectionsSpec restClasses classToCatId imageIndex allBoxes ∧
    cocoResultsOneCategory [7] [[⟨10, 10, 20, 30, 9/10⟩]] 1 =
      [{ image_id := 7, category_id := 1, bbox := [10, 10, 11, 21],
         score := 9/10 }] := by
  constructor
  · rw [writeCocoResultsFile, List.enum_cons', List.flatMap_cons, if_pos rfl,
      List.nil_append, List.flatMap_map, flattenDetectionsSpec]
    refine flatMap_congr_mem _ _ _ ?_
    intro p hp
    have hmem : p.2 ∈ restClasses := by
      have : p.2 ∈ restClasses.enum.map Prod.snd := List.mem_map_of_mem Prod.snd hp
      simpa [List.enum_map_snd] using this
    have hne : ¬((Prod.map (· + 1) id p).2 = "__background__") := by
      simp only [Prod.map_snd, id]
      exact fun hcontr => hbg (hcontr ▸ hmem)
    rw [if_neg hne]
    simp [Prod.map_fst, Prod.map_snd]
  · simp only [cocoResultsOneCategory, List.zip_cons_cons, List.zip_nil_right,
      List.flatMap_cons, List.flatMap_nil, List.map_cons, List.map_nil,
      List.append_nil]
    norm_num

/-- Closed instance of `writeResults_flatten` with one non-background class
and the single detection `(10, 10, 20, 30, 0.9)` of image 7. -/
theorem writeResults_flatten_witness :
    ("__background__" ∉ ["pedestrian"]) ∧
    (writeCocoResultsFile ["__background__", "pedestrian"] (fun _ => 1) [7]
        [[], [[⟨10, 10, 20, 30, 9/10⟩]]] =
      flattenDetectionsSpec ["pedestrian"] (fun _ => 1) [7]
        [[], [[⟨10, 10, 20, 30, 9/10⟩]]] ∧
     cocoResultsOneCategory [7] [[⟨10, 10, 20, 30, 9/10⟩]] 1 =
      [{ image_id := 7, category_id := 1, bbox := [10, 10, 11, 21],
         score := 9/10 }]) :=
  ⟨by decide,
   writeResults_flatten ["pedestrian"] (fun _ => 1) [7]
     [[], [[⟨10, 10, 20, 30, 9/10⟩]]] (by decide)⟩

end WP
